import Mathlib

/-!
Verification development for the PunDat archiver core.

The Go sources are embedded shallowly:
- the bolt-backed prefix index (`package prefix`) becomes pure functions over
  sorted association lists of byte-string keys;
- the mongo metadata adapter (`mongoStore`) becomes functions over in-memory
  document lists;
- the BtrDB adapter (`btrdbv4Iface`) and the query listener
  (`Archiver.listenQueries`) become functions whose external I/O (engine calls,
  fabric publishes) is an explicit parameter or an explicit outcome value, and
  whose Go runtime faults (failed type assertion, out-of-range index,
  out-of-range string slice) are explicit error values.
-/

namespace PunDat

/-! ## Byte strings and the bolt bucket model

Bolt buckets store byte-string keys in ascending lexicographic byte order.
A cursor `Seek(p)` positions at the first key `≥ p`; the scan loops while
`bytes.HasPrefix(k, p)` holds.  Keys and values are modelled as `List Nat`
(one `Nat` per byte; the concrete inputs used below are ASCII, where Go's
UTF-8 bytes and Lean's code points agree). -/

abbrev Bytes := List Nat

/-- Strict lexicographic order on byte strings, as bolt's `bytes.Compare < 0`. -/
def bytesLt : Bytes → Bytes → Bool
  | [], [] => false
  | [], _ :: _ => true
  | _ :: _, [] => false
  | a :: as, b :: bs => if a < b then true else if b < a then false else bytesLt as bs

/-- Bytes of a Go string (`[]byte(s)`); ASCII code points. -/
def strBytes (s : String) : Bytes := s.toList.map Char.toNat

/-- `itob` from prefix.go: 8-byte big-endian encoding of a uint64 sequence number. -/
def itob (v : Nat) : Bytes := (List.range 8).map (fun i => v / 256 ^ (7 - i) % 256)

/-- A bolt bucket: its `NextSequence` counter and its entries sorted by key.
`α` is the value type stored (byte strings, URI strings, or UUIDs). -/
structure Bucket (α : Type) where
  seq : Nat
  entries : List (Bytes × α)
  deriving DecidableEq, Repr

/-- `bolt.Bucket.Put`: insert keeping ascending key order, replacing an equal key. -/
def bput {α : Type} : List (Bytes × α) → Bytes → α → List (Bytes × α)
  | [], k, v => [(k, v)]
  | (k0, v0) :: rest, k, v =>
    if bytesLt k k0 then (k, v) :: (k0, v0) :: rest
    else if k = k0 then (k, v) :: rest
    else (k0, v0) :: bput rest k v

/-- A cursor scan: `Seek(pfx)` (skip keys `< pfx`) then emit keys while the key
still has `pfx` as a byte prefix, as in `GetMetadataSuperstrings` /
`GetTimeseriesSuperstrings`. -/
def scanKeys {α : Type} (entries : List (Bytes × α)) (pfx : Bytes) : List Bytes :=
  ((entries.map Prod.fst).dropWhile (fun k => bytesLt k pfx)).takeWhile
    (fun k => pfx.isPrefixOf k)

/-- Association-list lookup for the `uuid` bucket's per-URI sub-buckets
(`tx.Bucket(uuidBucket).Bucket([]byte(uri))`). -/
def assocGet {α : Type} : List (Bytes × α) → Bytes → Option α
  | [], _ => none
  | (k0, v0) :: rest, k => if k = k0 then some v0 else assocGet rest k

/-- Association-list update used for `CreateBucketIfNotExists` on sub-buckets. -/
def assocPut {α : Type} : List (Bytes × α) → Bytes → α → List (Bytes × α)
  | [], k, v => [(k, v)]
  | (k0, v0) :: rest, k, v =>
    if k = k0 then (k, v) :: rest else (k0, v0) :: assocPut rest k v

/-- The persistent state of `PrefixStore` (prefix.go): the `timeseries` bucket
(keys are URI bytes, values are sequence numbers), the `metadata` bucket
(keys are `itob` sequence numbers, values are URI strings), and the `uuid`
bucket (one sub-bucket per URI, holding UUIDs keyed by sequence number;
UUIDs are modelled as `Nat`). -/
structure PfxStore where
  tsB : Bucket Bytes
  mdB : Bucket String
  uuidB : List (Bytes × Bucket Nat)
  deriving DecidableEq, Repr

/-- A freshly created store (`NewPrefixStore` after creating the three buckets). -/
def pfxEmpty : PfxStore := ⟨⟨0, []⟩, ⟨0, []⟩, []⟩

/-- `AddMetadataURI` (prefix.go:142-148): `id, _ := b.NextSequence();
b.Put(itob(id), []byte(uri))` — unconditionally writes the URI under a fresh
sequence-number key. -/
def addMetadataURI (st : PfxStore) (uri : String) : PfxStore :=
  let id := st.mdB.seq + 1
  { st with mdB := ⟨id, bput st.mdB.entries (itob id) uri⟩ }

/-- `AddTimeseriesURI` (prefix.go:150-156): `b.Put([]byte(uri), itob(id))` —
the URI is the key, the sequence number the value. -/
def addTimeseriesURI (st : PfxStore) (uri : String) : PfxStore :=
  let id := st.tsB.seq + 1
  { st with tsB := ⟨id, bput st.tsB.entries (strBytes uri) (itob id)⟩ }

/-- `AddUUIDURIMapping` (prefix.go:158-170): get-or-create the per-URI
sub-bucket of the `uuid` bucket and append the UUID under a fresh sequence key. -/
def addUUIDURIMapping (st : PfxStore) (uri : String) (u : Nat) : PfxStore :=
  let sub := (assocGet st.uuidB (strBytes uri)).getD ⟨0, []⟩
  let id := sub.seq + 1
  { st with uuidB := assocPut st.uuidB (strBytes uri) ⟨id, bput sub.entries (itob id) u⟩ }

/-- `GetMetadataSuperstrings` (prefix.go:173-184): cursor over the `metadata`
bucket, `Seek([]byte(prefix))`, emitting `string(k)` for each KEY that has the
prefix.  (The keys of this bucket are `itob` sequence numbers.) -/
def getMetadataSuperstrings (st : PfxStore) (pfx : String) : List Bytes :=
  scanKeys st.mdB.entries (strBytes pfx)

/-- `GetTimeseriesSuperstrings` (prefix.go:187-198): the same cursor scan over
the `timeseries` bucket, whose keys are URI bytes. -/
def getTimeseriesSuperstrings (st : PfxStore) (pfx : String) : List Bytes :=
  scanKeys st.tsB.entries (strBytes pfx)

/-- Insert a UUID into the accumulated de-duplication set
(`foundUUIDs[...] = true`); insertion order stands in for Go's unspecified map
iteration order, and only set-level facts are stated about the result. -/
def dedupInsert (acc : List Nat) (u : Nat) : List Nat :=
  if u ∈ acc then acc else acc ++ [u]

/-- The loop body of `GetUUIDsFromURI` (prefix.go:206-219): walk the
superstring URIs in order; when a superstring has NO sub-bucket in the `uuid`
bucket the function executes `return nil`, ending the whole transaction with
whatever was accumulated so far; otherwise all values of the sub-bucket are
added to the set. -/
def collectUUIDs (ub : List (Bytes × Bucket Nat)) : List Bytes → List Nat → List Nat
  | [], acc => acc
  | suri :: rest, acc =>
    match assocGet ub suri with
    | none => acc
    | some sub => collectUUIDs ub rest (sub.entries.foldl (fun a e => dedupInsert a e.2) acc)

/-- `GetUUIDsFromURI` (prefix.go:200-224): compute the timeseries superstrings
of `uri`, then collect the UUID sub-buckets under each into a set and return
it as a list. -/
def getUUIDsFromURI (st : PfxStore) (uri : String) : List Nat :=
  collectUUIDs st.uuidB (getTimeseriesSuperstrings st uri) []

/-! ## Mongo metadata store model

Documents are association lists of field name to value.  Go/BSON values that
occur in these code paths are strings and ints. -/

/-- A BSON field value: a string or an int (`bson.M` entries seen by this code). -/
inductive GoVal
  | vstr (s : String)
  | vint (n : Int)
  deriving DecidableEq, Repr

/-- A metadata document: field name to value, first binding wins. -/
abbrev MDoc := List (String × GoVal)

/-- Field access on a document (`res.(bson.M)[k]`). -/
def fieldGet (d : MDoc) (k : String) : Option GoVal := (d.find? (fun e => e.1 = k)).map Prod.snd

/-- `UnitOfTime` constant `common.UOT_S` (seconds).
Modelled from the spec: the `common` package is not under src/; the spec's
`GetUnitOfTime` contract names a seconds unit used as the default, and the
upstream numbering (ns=1, us=2, ms=3, s=4) fixes the numeral. -/
def UOT_S : Int := 4

/-- Failure modes of `GetUnitOfTime`: the `no stream named %v` error when the
count of matching documents is zero, and the `Invalid UnitOfTime retrieved?`
error when the stored field is not an int. -/
inductive UotErr
  | notFound
  | badUnit
  deriving DecidableEq, Repr

/-- Whether a document references the uuid, as the mongo query
`Find(bson.M{"uuid": uuid})` selects it. -/
def refsUUID (u : Int) (d : MDoc) : Bool := fieldGet d "uuid" == some (GoVal.vint u)

/-- `mongoStore.GetUnitOfTime` (mongo adapter, lines 309-335): count the
documents whose `uuid` field equals the argument; zero means the not-found
error; otherwise take the first match (`query.One`), read its `UnitofTime`
field: absent means the `UOT_S` default, a non-int value is the invalid-unit
error, and an int is cast to `UnitOfTime` with `0` replaced by `UOT_S`. -/
def getUnitOfTime (docs : List MDoc) (u : Int) : Except UotErr Int :=
  match docs.filter (refsUUID u) with
  | [] => .error .notFound
  | d :: _ =>
    match fieldGet d "UnitofTime" with
    | none => .ok UOT_S
    | some (.vint n) => .ok (if n = 0 then UOT_S else n)
    | some (.vstr _) => .error .badUnit

/-- The `where` clause translated to BSON (`where.ToBSON()` when non-empty,
`nil` otherwise).  Modelled from the spec: `common.Dict.ToBSON` is not under
src/; the spec makes `where` a finite map of field path to equality
predicate. -/
def toBSON (wh : List (String × GoVal)) : Option (List (String × GoVal)) :=
  if wh.isEmpty then none else some wh

/-- Whether a document matches the translated where clause (`Find(whereClause)`;
a `nil` clause matches everything). -/
def whMatches (wc : Option (List (String × GoVal))) (d : MDoc) : Bool :=
  match wc with
  | none => true
  | some w => w.all (fun kv => fieldGet d kv.1 == some kv.2)

/-- The projection applied by `staged.Select(selectTags)`:
`selectTags = {"_id": 0}` plus `{tag: 1}` per requested tag, so with no tags
everything but `_id` is kept, and with tags only the listed tags are kept
(`_id` stays excluded). -/
def projectDoc (tags : List String) (d : MDoc) : MDoc :=
  if tags.isEmpty then d.filter (fun kv => kv.1 != "_id")
  else d.filter (fun kv => kv.1 != "_id" && tags.contains kv.1)

/-- The list `_results` that `GetMetadata` reads back from the engine:
matching documents under the `selectTags` projection. -/
def gmResults (docs : List MDoc) (tags : List String) (wh : List (String × GoVal)) :
    List MDoc :=
  (docs.filter (whMatches (toBSON wh))).map (projectDoc tags)

/-- `mongoStore.GetMetadata` (mongo adapter, lines 348-370): build the where
clause and the `selectTags` projection, fetch `_results`, log each document,
and then `return nil, nil` — the computed projection is discarded and no
group is ever returned. -/
def getMetadata (docs : List MDoc) (tags : List String) (wh : List (String × GoVal)) :
    Except String (Option (List MDoc)) :=
  let _results := gmResults docs tags wh
  .ok none

/-- A one-document store whose single record matches the empty where clause. -/
def c3Docs : List MDoc :=
  [[("_id", GoVal.vint 1), ("Key", GoVal.vstr "Building"), ("uuid", GoVal.vint 7)]]

/-! Concrete stores used to evaluate the prefix-index claims. -/

/-- Store with timeseries URIs `a/b` and `a/c`, and UUID 42 registered under
`a/c` only (no `AddUUIDURIMapping` call was made for `a/b`). -/
def c1Store : PfxStore :=
  addUUIDURIMapping (addTimeseriesURI (addTimeseriesURI pfxEmpty "a/b") "a/c") "a/c" 42

/-- Store holding the single metadata URI `a`. -/
def c2Store : PfxStore := addMetadataURI pfxEmpty "a"

/-! ## BtrDB adapter model

Engine I/O is abstracted: which uuids have a backing stream is the `known`
list, fetched data is an oracle function, and an insert's verdict is a
boolean parameter.  Go runtime faults on these paths are explicit values. -/

/-- A Go runtime fault on the modelled paths: a failed interface type
assertion (`v.(string)`), an out-of-range slice index (`streams[0]`), or an
out-of-range string slice (`fromVK[:len(fromVK)-1]`). -/
inductive GoFault
  | typeAssert
  | indexRange
  | sliceBounds
  deriving DecidableEq, Repr

/-- `uuidsToStreams` (btrdb.v4.go:131-147): keep the uuids for which a stream
object exists; a uuid whose stream does not exist (or whose lookup fails) is
skipped after logging. -/
def uuidsToStreams (known : List Nat) (uuids : List Nat) : List Nat :=
  uuids.filter (fun u => known.contains u)

/-- Go slice indexing `l[i]`: out of range is a runtime fault. -/
def goIdx {α : Type} (l : List α) (i : Nat) : Except GoFault α :=
  match l.get? i with
  | some x => .ok x
  | none => .error .indexRange

/-- The Go interface type assertion `v.(string)` from `AddAnnotations`. -/
def goAssertStr : GoVal → Except GoFault String
  | .vstr s => .ok s
  | .vint _ => .error .typeAssert

/-- The update-conversion loop of `AddAnnotations` (btrdb.v4.go:426-431):
`vs := v.(string)` (a fault on any non-string value), keys lower-cased. -/
def buildAnns : List (String × GoVal) → Except GoFault (List (String × String))
  | [] => .ok []
  | (k, v) :: rest => do
    let vs ← goAssertStr v
    let tail ← buildAnns rest
    .ok ((k.toLower, vs) :: tail)

/-- `AddAnnotations` (btrdb.v4.go:420-441): resolve the uuid to streams; with
no stream the loop body never runs and nil comes back; with a stream the
update map is converted (faulting on non-string values) and handed to the
engine's compare-and-set, whose verdict is external — the converted map is
returned here in its place. -/
def addAnnotations (known : List Nat) (u : Nat) (updates : List (String × GoVal)) :
    Except GoFault (Option (List (String × String))) :=
  match uuidsToStreams known [u] with
  | [] => .ok none
  | _ :: _ => do
    let anns ← buildAnns updates
    .ok (some anns)

/-- `GetDataUUID` (btrdb.v4.go:236-256): `bdb.uuidsToStreams(uuid)[0]` —
indexing the possibly-empty stream list is a runtime fault when the uuid has
no backing stream; otherwise the stream's raw points are drained from the
engine (the `fetch` oracle). -/
def getDataUUID {α : Type} (known : List Nat) (fetch : Nat → List α) (u : Nat) :
    Except GoFault (Nat × List α) := do
  let s ← goIdx (uuidsToStreams known [u]) 0
  .ok (s, fetch s)

/-- The atomic counter operations of `AddReadings` on *current-writes* and
*completed-writes*. -/
inductive CtrOp
  | incCurrent
  | decCurrent
  | incCompleted
  deriving DecidableEq, Repr

/-- `AddReadings` (btrdb.v4.go:149-169) as its trace of counter operations
plus its success flag.  When the stream cannot be resolved the call returns
the wrapped error before touching any counter.  Otherwise *current-writes* is
incremented, the insert runs (`insertOk` is the engine's verdict on
`InsertF`), and the deferred function — run when the call returns, whatever
the insert's outcome — decrements *current-writes* and increments
*completed-writes*. -/
def addReadings (streamFound : Bool) (insertOk : Bool) : List CtrOp × Bool :=
  if streamFound then ([CtrOp.incCurrent, CtrOp.decCurrent, CtrOp.incCompleted], insertOk)
  else ([], false)

/-! `common.UnitOfTime` codes.  Modelled from the spec: the `common` package
is not under src/; the spec names nanosecond, microsecond, millisecond and
second units, numbered ns=1, us=2, ms=3, s=4 as upstream (`UOT_S` above). -/

/-- Nanoseconds unit code. -/
def UOT_NS : Int := 1

/-- Microseconds unit code. -/
def UOT_US : Int := 2

/-- Milliseconds unit code. -/
def UOT_MS : Int := 3

/-- Nanoseconds per unit; `none` for an unknown unit code. -/
def nsFactor (u : Int) : Option Int :=
  if u = UOT_NS then some 1
  else if u = UOT_US then some 1000
  else if u = UOT_MS then some 1000000
  else if u = UOT_S then some 1000000000
  else none

/-- Modelled from the spec: `common.ConvertTime` to nanoseconds is not under
src/; per the spec, a time is converted to nanoseconds by its unit's scale,
failing on an unknown unit. -/
def convertToNs (t u : Int) : Option Int := (nsFactor u).map (fun m => t * m)

/-- Modelled from the spec: `MaximumTime` is not under src/; the upstream
BTrDB binding constant is `48 << 56` nanoseconds, and no claim depends on
the numeral beyond it being nonnegative. -/
def MaximumTime : Int := 48 * 2 ^ 56

/-- `ValidTimestamp` (btrdb.v4.go:405-411): convert to nanoseconds unless the
unit already is nanoseconds, then `time >= 0 && time <= MaximumTime &&
err == nil` — a failed conversion makes the conjunction false regardless of
the bounds. -/
def ValidTimestamp (t u : Int) : Bool :=
  if u ≠ UOT_NS then
    match convertToNs t u with
    | some t2 => decide (0 ≤ t2) && decide (t2 ≤ MaximumTime)
    | none => false
  else decide (0 ≤ t) && decide (t ≤ MaximumTime)

/-! ## Query listener model (archiver.go)

`HandleQuery` orchestrates the external parser and the stores; it enters the
model as an oracle `handle : vk → query string → Except error Results`.
Publishing on the fabric is the explicit `Outcome`. -/

/-- The query message body `KeyValueQuery{Query, Nonce}`. -/
structure KVQuery where
  q : String
  nonce : Nat
  deriving DecidableEq, Repr

/-- The payload object of an inbound query message: absent (`GetOnePODF`
returned nil), present but not msgpack, msgpack failing `ValueInto`, or a
decoded query. -/
inductive QueryPO
  | missing
  | notMsgpack
  | badDecode
  | good (kv : KVQuery)
  deriving DecidableEq, Repr

/-- An inbound `bw2.SimpleMessage` as `listenQueries` consumes it. -/
structure BWMsg where
  fromVK : String
  po : QueryPO
  deriving DecidableEq, Repr

/-- The `QueryError{Query, Nonce, Error}` payload. -/
structure QueryError where
  query : String
  nonce : Nat
  errText : String
  deriving DecidableEq, Repr

/-- The evaluator's result sets (metadata, timeseries, statistics, changed
ranges); group contents are opaque ids. -/
structure Results where
  md : List Nat
  ts : List Nat
  stats : List Nat
  changed : List Nat
  deriving DecidableEq, Repr

/-- A reply payload object: the metadata PO, the timeseries PO (raw plus
statistics), the changed-ranges PO, or the query-error PO; each is built with
the nonce passed to its `POsFrom…` constructor. -/
inductive ReplyPO
  | mdPO (nonce : Nat) (groups : List Nat)
  | tsPO (nonce : Nat) (ts stats : List Nat)
  | chPO (nonce : Nat) (ch : List Nat)
  | errPO (e : QueryError)
  deriving DecidableEq, Repr

/-- The nonce carried by a reply payload object. -/
def replyNonce : ReplyPO → Nat
  | .mdPO n _ => n
  | .tsPO n _ _ => n
  | .chPO n _ => n
  | .errPO e => e.nonce

/-- What `listenQueries` does with one message: return silently, hit the Go
slice fault on an empty `fromVK`, or publish payloads on a signal URI. -/
inductive Outcome
  | silent
  | fault
  | publish (uri : String) (pos : List ReplyPO)
  deriving DecidableEq, Repr

/-- The reply signal URI (archiver.go:180): the requester's key with its last
character stripped, then `",queries"` appended. -/
def mkSignalURI (vk : String) : String := vk.dropRight 1 ++ ",queries"

/-- Reply assembly on success (archiver.go:199-214): one payload per
non-empty result family. -/
def replyList (nonce : Nat) (r : Results) : List ReplyPO :=
  (if r.md.length > 0 then [ReplyPO.mdPO nonce r.md] else [])
    ++ (if r.ts.length + r.stats.length > 0 then [ReplyPO.tsPO nonce r.ts r.stats] else [])
    ++ (if r.changed.length > 0 then [ReplyPO.chPO nonce r.changed] else [])

/-- The full success reply (archiver.go:199-220): when no payload was
produced, a single metadata payload over the (empty) metadata results is sent
instead, so every successful query gets a reply. -/
def successReply (nonce : Nat) (r : Results) : List ReplyPO :=
  if (replyList nonce r).length = 0 then [ReplyPO.mdPO nonce r.md] else replyList nonce r

/-- The tail of `listenQueries` once the payload object is in hand
(archiver.go:180-227): compute the signal URI — `fromVK[:len(fromVK)-1]` is a
runtime fault when `fromVK` is empty — then evaluate through `HandleQuery`
(the `handle` oracle) and publish either the `QueryError` payload or the
assembled replies. -/
def listenTail (handle : String → String → Except String Results) (m : BWMsg)
    (kv : KVQuery) : Outcome :=
  if m.fromVK = "" then .fault
  else
    match handle m.fromVK kv.q with
    | .error e => .publish (mkSignalURI m.fromVK) [ReplyPO.errPO ⟨kv.q, kv.nonce, e⟩]
    | .ok r => .publish (mkSignalURI m.fromVK) (successReply kv.nonce r)

/-- `Archiver.listenQueries` (archiver.go:157-227): a message without the
query PO returns silently; a msgpack PO that fails `ValueInto` is logged and
then returns silently (before the signal URI is computed); a non-msgpack PO
is only logged, so evaluation proceeds with the zero-value query; a decoded
query proceeds with its contents. -/
def listenQueries (handle : String → String → Except String Results) (m : BWMsg) :
    Outcome :=
  match m.po with
  | .missing => .silent
  | .badDecode => .silent
  | .notMsgpack => listenTail handle m ⟨"", 0⟩
  | .good kv => listenTail handle m kv

end PunDat

/-- C1: refuted on the code.  In `c1Store`, both `a/b` and `a/c` are stored
timeseries superstrings of `a` and UUID 42 is recorded in the sub-bucket of
`a/c`, yet `GetUUIDsFromURI("a")` returns the empty list: the loop hits the
sub-bucket-less `a/b` first and `return nil` aborts the scan, omitting the
UUIDs of the later superstring `a/c`. -/
theorem getUUIDsFromURI_drops_later_superstrings :
    PunDat.getUUIDsFromURI PunDat.c1Store "a" = []
    ∧ PunDat.getTimeseriesSuperstrings PunDat.c1Store "a"
        = [PunDat.strBytes "a/b", PunDat.strBytes "a/c"]
    ∧ PunDat.assocGet PunDat.c1Store.uuidB (PunDat.strBytes "a/c")
        = some ⟨1, [(PunDat.itob 1, 42)]⟩ := by
  refine ⟨by decide, by decide, by decide⟩

/-- C2: refuted on the code.  After `AddMetadataURI("a")` the metadata bucket
holds the URI `a` as a VALUE under the sequence key `itob 1`, but
`GetMetadataSuperstrings` scans bucket KEYS, so the query for prefix `a`
returns the empty list instead of `["a"]`. -/
theorem getMetadataSuperstrings_scans_sequence_keys :
    PunDat.getMetadataSuperstrings PunDat.c2Store "a" = []
    ∧ PunDat.c2Store.mdB.entries = [(PunDat.itob 1, "a")] := by
  refine ⟨by decide, by decide⟩

/-- C9: refuted on the code.  `AddMetadataURI` never checks for presence: a
second call with the already-stored URI `a` appends a second entry under the
fresh sequence key `itob 2`, changing the persisted bucket. -/
theorem addMetadataURI_always_appends :
    (PunDat.addMetadataURI (PunDat.addMetadataURI PunDat.pfxEmpty "a") "a").mdB.entries
      = [(PunDat.itob 1, "a"), (PunDat.itob 2, "a")]
    ∧ PunDat.addMetadataURI (PunDat.addMetadataURI PunDat.pfxEmpty "a") "a"
        ≠ PunDat.addMetadataURI PunDat.pfxEmpty "a" := by
  refine ⟨by decide, by decide⟩

/-- C3: refuted on the code.  With a store holding one record matching the
empty where clause, `GetMetadata` computes the projected results (with the
internal `_id` excluded) but then discards them and returns `nil, nil`: no
metadata group is ever returned. -/
theorem getMetadata_returns_nil :
    PunDat.getMetadata PunDat.c3Docs [] [] = .ok none
    ∧ PunDat.gmResults PunDat.c3Docs [] []
        = [[("Key", PunDat.GoVal.vstr "Building"), ("uuid", PunDat.GoVal.vint 7)]] := by
  refine ⟨rfl, by decide⟩

/-- C6: confirmed.  `GetUnitOfTime` fails with the not-found error exactly
when no stored document references the uuid; otherwise it reads the first
referencing document's `UnitofTime` field, defaulting to seconds (`UOT_S`)
when the field is absent or zero and returning the stored unit when it is a
non-zero int. -/
theorem getUnitOfTime_spec (docs : List PunDat.MDoc) (u : Int) :
    (PunDat.getUnitOfTime docs u = .error .notFound
      ↔ ∀ d ∈ docs, PunDat.refsUUID u d = false)
    ∧ (∀ d rest, docs.filter (PunDat.refsUUID u) = d :: rest →
        (PunDat.fieldGet d "UnitofTime" = none →
          PunDat.getUnitOfTime docs u = .ok PunDat.UOT_S)
        ∧ (∀ n : Int, PunDat.fieldGet d "UnitofTime" = some (PunDat.GoVal.vint n) →
            PunDat.getUnitOfTime docs u = .ok (if n = 0 then PunDat.UOT_S else n))) := by
  constructor
  · have key : PunDat.getUnitOfTime docs u = .error .notFound
        ↔ docs.filter (PunDat.refsUUID u) = [] := by
      unfold PunDat.getUnitOfTime
      cases hfil : docs.filter (PunDat.refsUUID u) with
      | nil => simp
      | cons d rest =>
        simp only []
        cases hf : PunDat.fieldGet d "UnitofTime" with
        | none => simp
        | some v => cases v <;> simp
    rw [key, List.filter_eq_nil_iff]
    simp
  · intro d rest hfil
    constructor
    · intro hnone
      unfold PunDat.getUnitOfTime
      rw [hfil]
      simp [hnone]
    · intro n hint
      unfold PunDat.getUnitOfTime
      rw [hfil]
      simp [hint]

/-- Witness for C6: on a store with one document referencing uuid 7 whose
stored unit is zero, the seconds default is returned; on the empty store the
not-found error is returned. -/
theorem getUnitOfTime_spec_witness :
    PunDat.getUnitOfTime
        [[("uuid", PunDat.GoVal.vint 7), ("UnitofTime", PunDat.GoVal.vint 0)]] 7
      = .ok PunDat.UOT_S
    ∧ PunDat.getUnitOfTime [] 7 = .error .notFound := by
  constructor
  · have h := (getUnitOfTime_spec
      [[("uuid", PunDat.GoVal.vint 7), ("UnitofTime", PunDat.GoVal.vint 0)]] 7).2
      [("uuid", PunDat.GoVal.vint 7), ("UnitofTime", PunDat.GoVal.vint 0)] [] (by decide)
    simpa using h.2 0 (by decide)
  · exact (getUnitOfTime_spec [] 7).1.mpr (by simp)

/-- C4: refuted on the code — the core runtime paths do abort on data.  A
non-string annotation value faults the interface type assertion in
`AddAnnotations`; a uuid with no backing stream faults the `[0]` index in
`GetDataUUID`; an otherwise well-formed query message whose sender key is
empty faults the `fromVK[:len(fromVK)-1]` slice in `listenQueries`. -/
theorem core_faults_on_data :
    PunDat.addAnnotations [5] 5 [("K", PunDat.GoVal.vint 3)]
      = .error PunDat.GoFault.typeAssert
    ∧ PunDat.getDataUUID ([] : List Nat) (fun _ => ([] : List Nat)) 5
        = .error PunDat.GoFault.indexRange
    ∧ PunDat.listenQueries (fun _ _ => .error "e") ⟨"", .good ⟨"q", 1⟩⟩
        = PunDat.Outcome.fault := by
  refine ⟨rfl, rfl, rfl⟩

/-- C7: refuted as stated.  A call that resolves its stream but whose insert
FAILS still runs the deferred block, so *completed-writes* is incremented on
the failing call as well. -/
theorem addReadings_completed_on_failure :
    PunDat.addReadings true false
      = ([PunDat.CtrOp.incCurrent, PunDat.CtrOp.decCurrent, PunDat.CtrOp.incCompleted],
         false) := rfl

/-- C7 amended: for every call that reaches the insert, *current-writes* is
incremented on entry and decremented on return, and *completed-writes* is
incremented on return REGARDLESS of the insert's outcome; a call that fails
to resolve the stream touches neither counter. -/
theorem addReadings_counter_trace (insertOk : Bool) :
    PunDat.addReadings false insertOk = ([], false)
    ∧ PunDat.addReadings true insertOk
        = ([PunDat.CtrOp.incCurrent, PunDat.CtrOp.decCurrent, PunDat.CtrOp.incCompleted],
           insertOk) := by
  cases insertOk <;> exact ⟨rfl, rfl⟩

/-- C8: confirmed.  `ValidTimestamp t u` is true exactly when the conversion
of `t` to nanoseconds succeeds with a value in `[0, MaximumTime]`; in
particular the four stated nanosecond boundary cases hold. -/
theorem ValidTimestamp_spec (t u : Int) :
    (PunDat.ValidTimestamp t u = true ↔
      ∃ t2, PunDat.convertToNs t u = some t2 ∧ 0 ≤ t2 ∧ t2 ≤ PunDat.MaximumTime)
    ∧ PunDat.ValidTimestamp 0 PunDat.UOT_NS = true
    ∧ PunDat.ValidTimestamp (-1) PunDat.UOT_NS = false
    ∧ PunDat.ValidTimestamp PunDat.MaximumTime PunDat.UOT_NS = true
    ∧ PunDat.ValidTimestamp (PunDat.MaximumTime + 1) PunDat.UOT_NS = false := by
  refine ⟨?_, by decide, by decide, by decide, by decide⟩
  by_cases hu : u = PunDat.UOT_NS
  · subst hu
    simp [PunDat.ValidTimestamp, PunDat.convertToNs, PunDat.nsFactor, mul_one]
  · unfold PunDat.ValidTimestamp
    rw [if_pos hu]
    cases hf : PunDat.convertToNs t u with
    | none => simp [hf]
    | some t2 => simp [hf]

/-- Every payload in the assembled (pre-fallback) reply list carries the
query's nonce. -/
theorem replyList_nonce (n : Nat) (r : PunDat.Results) :
    ∀ po ∈ PunDat.replyList n r, PunDat.replyNonce po = n := by
  intro po hmem
  unfold PunDat.replyList at hmem
  simp only [List.mem_append] at hmem
  rcases hmem with (h | h) | h <;> split at h <;>
    simp_all [PunDat.replyNonce]

/-- Every payload in the full success reply carries the query's nonce. -/
theorem successReply_nonce (n : Nat) (r : PunDat.Results) :
    ∀ po ∈ PunDat.successReply n r, PunDat.replyNonce po = n := by
  intro po hmem
  unfold PunDat.successReply at hmem
  split at hmem
  · simp at hmem
    subst hmem
    rfl
  · exact replyList_nonce n r po hmem

/-- C5: refuted as stated.  A query message whose msgpack payload fails to
unmarshal (`obj.ValueInto(&query)` errors) makes `listenQueries` return after
logging, publishing nothing — no `QueryError` reaches the requester even
though this is a malformed-input evaluation failure. -/
theorem listenQueries_silent_on_bad_decode :
    PunDat.listenQueries (fun _ _ => .error "parse error") ⟨"K0", .badDecode⟩
      = PunDat.Outcome.silent := rfl

/-- C5 amended: for every query message whose payload DECODES and whose
evaluation fails, a `QueryError` carrying the query string, the caller's
nonce and the error text is published on the URI obtained by stripping the
last character of the requester's key and appending `",queries"`; a message
whose msgpack payload fails to decode is dropped with no reply; on success
every reply payload echoes the query's nonce. -/
theorem listenQueries_reports_query_errors
    (handle : String → String → Except String PunDat.Results)
    (m : PunDat.BWMsg) (kv : PunDat.KVQuery)
    (hpo : m.po = .good kv) (hvk : m.fromVK ≠ "") :
    (∀ e, handle m.fromVK kv.q = .error e →
      PunDat.listenQueries handle m
        = .publish (PunDat.mkSignalURI m.fromVK)
            [PunDat.ReplyPO.errPO ⟨kv.q, kv.nonce, e⟩])
    ∧ (∀ r, handle m.fromVK kv.q = .ok r →
      PunDat.listenQueries handle m
        = .publish (PunDat.mkSignalURI m.fromVK) (PunDat.successReply kv.nonce r)
      ∧ ∀ po ∈ PunDat.successReply kv.nonce r, PunDat.replyNonce po = kv.nonce) := by
  cases m with
  | mk vk po =>
    cases hpo
    refine ⟨?_, ?_⟩
    · intro e he
      simp [PunDat.listenQueries, PunDat.listenTail, hvk, he]
    · intro r hr
      refine ⟨?_, successReply_nonce kv.nonce r⟩
      simp [PunDat.listenQueries, PunDat.listenTail, hvk, hr]

/-- Witness for C5 (amended): a decoded query whose evaluation fails with
`"boom"` yields exactly the `QueryError` publish on the stripped-key signal
URI. -/
theorem listenQueries_reports_query_errors_witness :
    PunDat.listenQueries (fun _ _ => .error "boom") ⟨"K0", .good ⟨"q", 7⟩⟩
      = .publish (PunDat.mkSignalURI "K0") [PunDat.ReplyPO.errPO ⟨"q", 7, "boom"⟩] :=
  (listenQueries_reports_query_errors (fun _ _ => .error "boom")
    ⟨"K0", .good ⟨"q", 7⟩⟩ ⟨"q", 7⟩ rfl (by decide)).1 "boom" rfl

/-- C10: confirmed.  A decoded query that evaluates successfully with every
result family empty is still answered: exactly one reply payload is
published, the metadata payload over the empty group list, carrying the
query's nonce, on the requester's signal URI. -/
theorem listenQueries_empty_result_reply
    (handle : String → String → Except String PunDat.Results)
    (m : PunDat.BWMsg) (kv : PunDat.KVQuery) (r : PunDat.Results)
    (hpo : m.po = .good kv) (hvk : m.fromVK ≠ "")
    (hr : handle m.fromVK kv.q = .ok r)
    (hmd : r.md = []) (hts : r.ts = []) (hst : r.stats = []) (hch : r.changed = []) :
    PunDat.listenQueries handle m
      = .publish (PunDat.mkSignalURI m.fromVK) [PunDat.ReplyPO.mdPO kv.nonce []] := by
  cases m with
  | mk vk po =>
    cases hpo
    have hsr : PunDat.successReply kv.nonce r = [PunDat.ReplyPO.mdPO kv.nonce r.md] := by
      unfold PunDat.successReply PunDat.replyList
      simp [hmd, hts, hst, hch]
    simp [PunDat.listenQueries, PunDat.listenTail, hvk, hr, hsr, hmd]

/-- Witness for C10: a successful evaluation with all-empty results publishes
the single empty metadata payload with the query's nonce. -/
theorem listenQueries_empty_result_reply_witness :
    PunDat.listenQueries (fun _ _ => .ok ⟨[], [], [], []⟩) ⟨"K0", .good ⟨"q", 9⟩⟩
      = .publish (PunDat.mkSignalURI "K0") [PunDat.ReplyPO.mdPO 9 []] :=
  listenQueries_empty_result_reply (fun _ _ => .ok ⟨[], [], [], []⟩)
    ⟨"K0", .good ⟨"q", 9⟩⟩ ⟨"q", 9⟩ ⟨[], [], [], []⟩ rfl (by decide) rfl rfl rfl rfl rfl
